import Mathlib

/-!
Verification of the ForceAtlas2 orchestration driver (forceatlas/layout.py).

The driver fa2_layout normalizes a graph-like input, builds a dense
label-to-index mapping, serializes the relabeled graph to a temporary
Pajek file, optionally serializes caller-supplied initial positions,
builds the external engine argument vector, invokes the engine as a
subprocess, parses the output coordinate file back through the inverse
mapping, and cleans up temporary files in a try/finally block.

The embedding below models each stage from the source.  Numeric
configuration parameters enter the argument vector only through the
Python str() conversion, so they are modelled by the strings that str()
produces; booleans stay booleans; optional parameters are Options.
Exceptions are modelled with Except, the file system as a list of
existing paths, and the Python local-variable table of the function
(relevant because the finally block can reference unbound locals) as a
record of Option-valued slots.
-/

namespace ForceAtlas

/-- Configuration record of fa2_layout: one field per keyword parameter
that influences the engine argument vector.  String-valued fields hold
the str() image of the corresponding Python value; Option fields are
None-able parameters. -/
structure Config where
  iterations : String
  threshold : Option String
  directed : Bool
  dim : Nat
  splits : Option String
  theta : String
  update_iter : String
  update_center : Bool
  jitter_tolerance : String
  lin_log_mode : Bool
  repulsion : Option String
  gravity : String
  strong_gravity_mode : Bool
  outbound_attraction_distribution : Bool
  n_jobs : String
  seed : Option String
deriving DecidableEq, Repr

/-- Model of a conditional command.append(flag) guarded by an if. -/
def flagIf (b : Bool) (flag : String) : List String :=
  if b then [flag] else []

/-- Model of a conditional command.extend([flag, str(v)]) guarded by a
None check. -/
def flagOpt (flag : String) : Option String → List String
  | some v => [flag, v]
  | none => []

/-- Stopping-criterion flags, lines 188 to 196 of layout.py: nsteps when
threshold is None, otherwise targetChangePerNode and targetSteps. -/
def stoppingFlags (cfg : Config) : List String :=
  match cfg.threshold with
  | none => ["--nsteps", cfg.iterations]
  | some t => ["--targetChangePerNode", t, "--targetSteps", cfg.iterations]

/-- Unconditional head of the argument vector, lines 138 to 159 of
layout.py. -/
def baseCommand (classpath : String) (cfg : Config)
    (graphFile outputFile : String) : List String :=
  ["java",
   "-Djava.awt.headless=true",
   "-Xmx8g",
   "-cp",
   classpath,
   "kco.forceatlas2.Main",
   "--input",
   graphFile,
   "--output",
   outputFile,
   "--nthreads",
   cfg.n_jobs,
   "--barnesHutTheta",
   cfg.theta,
   "--barnesHutUpdateIter",
   cfg.update_iter,
   "--jitterTolerance",
   cfg.jitter_tolerance,
   "--gravity",
   cfg.gravity]

/-- Full engine argument vector built by fa2_layout, lines 138 to 208 of
layout.py, with the conditional segments in source order.  The coords
segment is appended exactly when an initial-position file path was
produced. -/
def buildCommand (classpath : String) (cfg : Config)
    (graphFile outputFile : String) (posFile : Option String) : List String :=
  baseCommand classpath cfg graphFile outputFile
    ++ flagIf (cfg.dim == 2) "--2d"
    ++ flagOpt "--seed" cfg.seed
    ++ flagOpt "--barnesHutSplits" cfg.splits
    ++ flagIf cfg.update_center "--updateCenter"
    ++ flagIf cfg.lin_log_mode "--linLogMode"
    ++ flagOpt "--scalingRatio" cfg.repulsion
    ++ flagIf cfg.strong_gravity_mode "--strongGravityMode"
    ++ flagIf cfg.outbound_attraction_distribution "--outboundAttractionDistribution"
    ++ flagIf cfg.directed "--directed"
    ++ stoppingFlags cfg
    ++ flagOpt "--coords" posFile

/-- The conditional flag strings of the command-line contract. -/
def reservedFlags : List String :=
  ["--2d", "--seed", "--barnesHutSplits", "--updateCenter", "--linLogMode",
   "--scalingRatio", "--strongGravityMode", "--outboundAttractionDistribution",
   "--directed", "--nsteps", "--targetChangePerNode", "--targetSteps", "--coords"]

/-- A string that is not one of the conditional flag strings. -/
def Clean (s : String) : Prop := s ∉ reservedFlags

instance (s : String) : Decidable (Clean s) := by
  unfold Clean; infer_instance

/-- Clean lifted to an optional string. -/
def CleanOpt : Option String → Prop
  | none => True
  | some v => Clean v

instance (o : Option String) : Decidable (CleanOpt o) := by
  cases o <;> unfold CleanOpt <;> infer_instance

theorem cleanOpt_some {o : Option String} {v : String}
    (h : CleanOpt o) (hv : o = some v) : Clean v := by
  subst hv; exact h

/-- The free-form strings substituted into the argument vector (paths,
classpath, and str() images of numbers) are not themselves flag
strings.  This always holds for the real inputs: str() of a number
never starts with a dash-dash and the generated temp paths carry the
suffixes .net, .coords and .csv. -/
def WfCommand (classpath : String) (cfg : Config)
    (graphFile outputFile : String) (posFile : Option String) : Prop :=
  Clean classpath ∧ Clean graphFile ∧ Clean outputFile ∧
  Clean cfg.iterations ∧ Clean cfg.n_jobs ∧ Clean cfg.theta ∧
  Clean cfg.update_iter ∧ Clean cfg.jitter_tolerance ∧ Clean cfg.gravity ∧
  CleanOpt cfg.threshold ∧ CleanOpt cfg.seed ∧ CleanOpt cfg.splits ∧
  CleanOpt cfg.repulsion ∧ CleanOpt posFile

instance (classpath : String) (cfg : Config) (graphFile outputFile : String)
    (posFile : Option String) :
    Decidable (WfCommand classpath cfg graphFile outputFile posFile) := by
  unfold WfCommand; infer_instance

theorem mem_flagIf {x flag : String} {b : Bool} :
    x ∈ flagIf b flag ↔ b = true ∧ x = flag := by
  cases b <;> simp [flagIf]

theorem mem_flagOpt {x flag : String} {o : Option String} :
    x ∈ flagOpt flag o ↔ ∃ v, o = some v ∧ (x = flag ∨ x = v) := by
  cases o <;> simp [flagOpt]

theorem mem_stoppingFlags {x : String} {cfg : Config} :
    x ∈ stoppingFlags cfg ↔
      (cfg.threshold = none ∧ (x = "--nsteps" ∨ x = cfg.iterations)) ∨
      (∃ t, cfg.threshold = some t ∧
        (x = "--targetChangePerNode" ∨ x = t ∨ x = "--targetSteps" ∨
         x = cfg.iterations)) := by
  rcases h : cfg.threshold with _ | t <;> simp [stoppingFlags, h]

theorem mem_baseCommand {x classpath graphFile outputFile : String} {cfg : Config} :
    x ∈ baseCommand classpath cfg graphFile outputFile ↔
      (x = "java" ∨ x = "-Djava.awt.headless=true" ∨ x = "-Xmx8g" ∨
       x = "-cp" ∨ x = "kco.forceatlas2.Main" ∨ x = "--input" ∨
       x = "--output" ∨ x = "--nthreads" ∨ x = "--barnesHutTheta" ∨
       x = "--barnesHutUpdateIter" ∨ x = "--jitterTolerance" ∨
       x = "--gravity") ∨
      (x = classpath ∨ x = graphFile ∨ x = outputFile ∨ x = cfg.n_jobs ∨
       x = cfg.theta ∨ x = cfg.update_iter ∨ x = cfg.jitter_tolerance ∨
       x = cfg.gravity) := by
  simp [baseCommand]
  tauto

/-- Characterization of membership of a reserved flag string in the
built argument vector: under WfCommand a reserved flag occurs exactly
when its guarding condition holds. -/
theorem reserved_mem_buildCommand {x classpath graphFile outputFile : String}
    {cfg : Config} {posFile : Option String}
    (hw : WfCommand classpath cfg graphFile outputFile posFile)
    (hx : x ∈ reservedFlags) :
    x ∈ buildCommand classpath cfg graphFile outputFile posFile ↔
      (x = "--2d" ∧ cfg.dim = 2) ∨
      (x = "--seed" ∧ cfg.seed.isSome) ∨
      (x = "--barnesHutSplits" ∧ cfg.splits.isSome) ∨
      (x = "--updateCenter" ∧ cfg.update_center = true) ∨
      (x = "--linLogMode" ∧ cfg.lin_log_mode = true) ∨
      (x = "--scalingRatio" ∧ cfg.repulsion.isSome) ∨
      (x = "--strongGravityMode" ∧ cfg.strong_gravity_mode = true) ∨
      (x = "--outboundAttractionDistribution" ∧
        cfg.outbound_attraction_distribution = true) ∨
      (x = "--directed" ∧ cfg.directed = true) ∨
      (x = "--nsteps" ∧ cfg.threshold = none) ∨
      ((x = "--targetChangePerNode" ∨ x = "--targetSteps") ∧
        cfg.threshold.isSome) ∨
      (x = "--coords" ∧ posFile.isSome) := by
  obtain ⟨hcp, hgf, hof, hit, hnj, hth, hui, hjt, hgr, hthr, hsee, hspl,
    hrep, hpf⟩ := hw
  constructor
  · intro hm
    simp only [buildCommand, List.mem_append, mem_baseCommand, mem_flagIf,
      mem_flagOpt, mem_stoppingFlags, beq_iff_eq] at hm
    rcases hm with ((((((((((h | h) | h) | h) | h) | h) | h) | h) | h) |
        h) | h) | h
    · rcases h with (h | h | h | h | h | h | h | h | h | h | h | h) |
        (h | h | h | h | h | h | h | h)
      · rw [h] at hx; exact absurd hx (by decide)
      · rw [h] at hx; exact absurd hx (by decide)
      · rw [h] at hx; exact absurd hx (by decide)
      · rw [h] at hx; exact absurd hx (by decide)
      · rw [h] at hx; exact absurd hx (by decide)
      · rw [h] at hx; exact absurd hx (by decide)
      · rw [h] at hx; exact absurd hx (by decide)
      · rw [h] at hx; exact absurd hx (by decide)
      · rw [h] at hx; exact absurd hx (by decide)
      · rw [h] at hx; exact absurd hx (by decide)
      · rw [h] at hx; exact absurd hx (by decide)
      · rw [h] at hx; exact absurd hx (by decide)
      · rw [h] at hx; exact absurd hx hcp
      · rw [h] at hx; exact absurd hx hgf
      · rw [h] at hx; exact absurd hx hof
      · rw [h] at hx; exact absurd hx hnj
      · rw [h] at hx; exact absurd hx hth
      · rw [h] at hx; exact absurd hx hui
      · rw [h] at hx; exact absurd hx hjt
      · rw [h] at hx; exact absurd hx hgr
    · exact Or.inl ⟨h.2, h.1⟩
    · obtain ⟨v, hv, h | h⟩ := h
      · exact Or.inr (Or.inl ⟨h, by simp [hv]⟩)
      · rw [h] at hx; exact absurd hx (cleanOpt_some hsee hv)
    · obtain ⟨v, hv, h | h⟩ := h
      · exact Or.inr (Or.inr (Or.inl ⟨h, by simp [hv]⟩))
      · rw [h] at hx; exact absurd hx (cleanOpt_some hspl hv)
    · exact Or.inr (Or.inr (Or.inr (Or.inl ⟨h.2, h.1⟩)))
    · exact Or.inr (Or.inr (Or.inr (Or.inr (Or.inl ⟨h.2, h.1⟩))))
    · obtain ⟨v, hv, h | h⟩ := h
      · exact Or.inr (Or.inr (Or.inr (Or.inr (Or.inr (Or.inl
          ⟨h, by simp [hv]⟩)))))
      · rw [h] at hx; exact absurd hx (cleanOpt_some hrep hv)
    · exact Or.inr (Or.inr (Or.inr (Or.inr (Or.inr (Or.inr (Or.inl
        ⟨h.2, h.1⟩))))))
    · exact Or.inr (Or.inr (Or.inr (Or.inr (Or.inr (Or.inr (Or.inr
        (Or.inl ⟨h.2, h.1⟩)))))))
    · exact Or.inr (Or.inr (Or.inr (Or.inr (Or.inr (Or.inr (Or.inr
        (Or.inr (Or.inl ⟨h.2, h.1⟩))))))))
    · rcases h with ⟨hn, h | h⟩ | ⟨t, ht, h | h | h | h⟩
      · exact Or.inr (Or.inr (Or.inr (Or.inr (Or.inr (Or.inr (Or.inr
          (Or.inr (Or.inr (Or.inl ⟨h, hn⟩)))))))))
      · rw [h] at hx; exact absurd hx hit
      · exact Or.inr (Or.inr (Or.inr (Or.inr (Or.inr (Or.inr (Or.inr
          (Or.inr (Or.inr (Or.inr (Or.inl ⟨Or.inl h, by simp [ht]⟩))))))))))
      · rw [h] at hx; exact absurd hx (cleanOpt_some hthr ht)
      · exact Or.inr (Or.inr (Or.inr (Or.inr (Or.inr (Or.inr (Or.inr
          (Or.inr (Or.inr (Or.inr (Or.inl ⟨Or.inr h, by simp [ht]⟩))))))))))
      · rw [h] at hx; exact absurd hx hit
    · obtain ⟨p, hp, h | h⟩ := h
      · exact Or.inr (Or.inr (Or.inr (Or.inr (Or.inr (Or.inr (Or.inr
          (Or.inr (Or.inr (Or.inr (Or.inr ⟨h, by simp [hp]⟩))))))))))
      · rw [h] at hx; exact absurd hx (cleanOpt_some hpf hp)
  · intro hm
    rcases hm with ⟨h, hc⟩ | ⟨h, hc⟩ | ⟨h, hc⟩ | ⟨h, hc⟩ | ⟨h, hc⟩ |
      ⟨h, hc⟩ | ⟨h, hc⟩ | ⟨h, hc⟩ | ⟨h, hc⟩ | ⟨h, hc⟩ | ⟨h, hc⟩ | ⟨h, hc⟩
    · subst h
      simp [buildCommand, baseCommand, flagIf, hc]
    · obtain ⟨v, hv⟩ := Option.isSome_iff_exists.1 hc
      subst h
      simp [buildCommand, flagOpt, hv]
    · obtain ⟨v, hv⟩ := Option.isSome_iff_exists.1 hc
      subst h
      simp [buildCommand, flagOpt, hv]
    · subst h
      simp [buildCommand, flagIf, hc]
    · subst h
      simp [buildCommand, flagIf, hc]
    · obtain ⟨v, hv⟩ := Option.isSome_iff_exists.1 hc
      subst h
      simp [buildCommand, flagOpt, hv]
    · subst h
      simp [buildCommand, flagIf, hc]
    · subst h
      simp [buildCommand, flagIf, hc]
    · subst h
      simp [buildCommand, flagIf, hc]
    · subst h
      simp [buildCommand, stoppingFlags, hc]
    · obtain ⟨t, ht⟩ := Option.isSome_iff_exists.1 hc
      rcases h with h | h <;> subst h <;>
        simp [buildCommand, stoppingFlags, ht]
    · obtain ⟨p, hp⟩ := Option.isSome_iff_exists.1 hc
      subst h
      simp [buildCommand, flagOpt, hp]
theorem infix_of_eq {l m : List String} (pre post : List String)
    (h : m = pre ++ (l ++ post)) : l <:+: m :=
  ⟨pre, post, by rw [List.append_assoc, h]⟩

/-- Sample configuration used by concrete witnesses: the default keyword
arguments of fa2_layout on a four-core machine. -/
def sampleConfig : Config :=
  { iterations := "50", threshold := none, directed := false, dim := 2,
    splits := none, theta := "1.2", update_iter := "1", update_center := false,
    jitter_tolerance := "1", lin_log_mode := false, repulsion := none,
    gravity := "1", strong_gravity_mode := false,
    outbound_attraction_distribution := false, n_jobs := "4", seed := none }

/-- C2: the built argument vector contains exactly one stopping mode.
With threshold None it contains nsteps followed by the iteration count
and neither targetChangePerNode nor targetSteps; with a threshold set it
contains targetChangePerNode followed by the threshold and targetSteps
followed by the iteration count, and no nsteps.  The branches never
co-occur. -/
theorem stopping_mode_exclusive (classpath : String) (cfg : Config)
    (graphFile outputFile : String) (posFile : Option String)
    (hw : WfCommand classpath cfg graphFile outputFile posFile) :
    (cfg.threshold = none →
      ["--nsteps", cfg.iterations] <:+:
        buildCommand classpath cfg graphFile outputFile posFile ∧
      "--targetChangePerNode" ∉
        buildCommand classpath cfg graphFile outputFile posFile ∧
      "--targetSteps" ∉
        buildCommand classpath cfg graphFile outputFile posFile) ∧
    (∀ t, cfg.threshold = some t →
      ["--targetChangePerNode", t, "--targetSteps", cfg.iterations] <:+:
        buildCommand classpath cfg graphFile outputFile posFile ∧
      "--nsteps" ∉
        buildCommand classpath cfg graphFile outputFile posFile) := by
  constructor
  · intro hc
    refine ⟨?_, ?_, ?_⟩
    · have h1 : stoppingFlags cfg <:+:
          buildCommand classpath cfg graphFile outputFile posFile := by
        unfold buildCommand
        exact List.infix_append _ _ _
      simpa only [stoppingFlags, hc] using h1
    · intro hm
      rw [reserved_mem_buildCommand hw (by decide)] at hm
      simp [hc] at hm
    · intro hm
      rw [reserved_mem_buildCommand hw (by decide)] at hm
      simp [hc] at hm
  · intro t ht
    constructor
    · have h1 : stoppingFlags cfg <:+:
          buildCommand classpath cfg graphFile outputFile posFile := by
        unfold buildCommand
        exact List.infix_append _ _ _
      simpa only [stoppingFlags, ht] using h1
    · intro hm
      rw [reserved_mem_buildCommand hw (by decide)] at hm
      simp [ht] at hm

/-- Witness for C2 at the scenario of the spec: threshold 1e-3 and
iterations 10000. -/
theorem stopping_mode_exclusive_witness :
    WfCommand "cp.jar"
      { sampleConfig with threshold := some "0.001", iterations := "10000" }
      "g.net" "o.coords" none ∧
    (["--targetChangePerNode", "0.001", "--targetSteps", "10000"] <:+:
      buildCommand "cp.jar"
        { sampleConfig with threshold := some "0.001", iterations := "10000" }
        "g.net" "o.coords" none) ∧
    ("--nsteps" ∉
      buildCommand "cp.jar"
        { sampleConfig with threshold := some "0.001", iterations := "10000" }
        "g.net" "o.coords" none) :=
  ⟨by decide,
    ((stopping_mode_exclusive "cp.jar"
      { sampleConfig with threshold := some "0.001", iterations := "10000" }
      "g.net" "o.coords" none (by decide)).2 "0.001" rfl).1,
    ((stopping_mode_exclusive "cp.jar"
      { sampleConfig with threshold := some "0.001", iterations := "10000" }
      "g.net" "o.coords" none (by decide)).2 "0.001" rfl).2⟩
/-- C7: each conditional flag appears in the argument vector exactly
under its stated condition: 2d mode iff dim equals 2, seed, splits and
scalingRatio iff the corresponding optional parameter is provided (with
the value adjacent to its flag), the five boolean flags iff their
options are true, and coords iff an initial-position file was
produced. -/
theorem conditional_flags (classpath : String) (cfg : Config)
    (graphFile outputFile : String) (posFile : Option String)
    (hw : WfCommand classpath cfg graphFile outputFile posFile) :
    ("--2d" ∈ buildCommand classpath cfg graphFile outputFile posFile ↔
      cfg.dim = 2) ∧
    ("--seed" ∈ buildCommand classpath cfg graphFile outputFile posFile ↔
      cfg.seed.isSome) ∧
    (∀ v, cfg.seed = some v → ["--seed", v] <:+:
      buildCommand classpath cfg graphFile outputFile posFile) ∧
    ("--barnesHutSplits" ∈
        buildCommand classpath cfg graphFile outputFile posFile ↔
      cfg.splits.isSome) ∧
    (∀ v, cfg.splits = some v → ["--barnesHutSplits", v] <:+:
      buildCommand classpath cfg graphFile outputFile posFile) ∧
    ("--scalingRatio" ∈
        buildCommand classpath cfg graphFile outputFile posFile ↔
      cfg.repulsion.isSome) ∧
    (∀ v, cfg.repulsion = some v → ["--scalingRatio", v] <:+:
      buildCommand classpath cfg graphFile outputFile posFile) ∧
    ("--updateCenter" ∈
        buildCommand classpath cfg graphFile outputFile posFile ↔
      cfg.update_center = true) ∧
    ("--linLogMode" ∈
        buildCommand classpath cfg graphFile outputFile posFile ↔
      cfg.lin_log_mode = true) ∧
    ("--strongGravityMode" ∈
        buildCommand classpath cfg graphFile outputFile posFile ↔
      cfg.strong_gravity_mode = true) ∧
    ("--outboundAttractionDistribution" ∈
        buildCommand classpath cfg graphFile outputFile posFile ↔
      cfg.outbound_attraction_distribution = true) ∧
    ("--directed" ∈
        buildCommand classpath cfg graphFile outputFile posFile ↔
      cfg.directed = true) ∧
    ("--coords" ∈
        buildCommand classpath cfg graphFile outputFile posFile ↔
      posFile.isSome) ∧
    (∀ p, posFile = some p → ["--coords", p] <:+:
      buildCommand classpath cfg graphFile outputFile posFile) := by
  refine ⟨?_, ?_, ?_, ?_, ?_, ?_, ?_, ?_, ?_, ?_, ?_, ?_, ?_, ?_⟩
  · rw [reserved_mem_buildCommand hw (by decide)]; simp
  · rw [reserved_mem_buildCommand hw (by decide)]; simp
  · intro v hv
    refine infix_of_eq
      (baseCommand classpath cfg graphFile outputFile
        ++ flagIf (cfg.dim == 2) "--2d")
      (flagOpt "--barnesHutSplits" cfg.splits
        ++ flagIf cfg.update_center "--updateCenter"
        ++ flagIf cfg.lin_log_mode "--linLogMode"
        ++ flagOpt "--scalingRatio" cfg.repulsion
        ++ flagIf cfg.strong_gravity_mode "--strongGravityMode"
        ++ flagIf cfg.outbound_attraction_distribution
            "--outboundAttractionDistribution"
        ++ flagIf cfg.directed "--directed"
        ++ stoppingFlags cfg
        ++ flagOpt "--coords" posFile) ?_
    simp [buildCommand, flagOpt, hv, List.append_assoc]
  · rw [reserved_mem_buildCommand hw (by decide)]; simp
  · intro v hv
    refine infix_of_eq
      (baseCommand classpath cfg graphFile outputFile
        ++ flagIf (cfg.dim == 2) "--2d"
        ++ flagOpt "--seed" cfg.seed)
      (flagIf cfg.update_center "--updateCenter"
        ++ flagIf cfg.lin_log_mode "--linLogMode"
        ++ flagOpt "--scalingRatio" cfg.repulsion
        ++ flagIf cfg.strong_gravity_mode "--strongGravityMode"
        ++ flagIf cfg.outbound_attraction_distribution
            "--outboundAttractionDistribution"
        ++ flagIf cfg.directed "--directed"
        ++ stoppingFlags cfg
        ++ flagOpt "--coords" posFile) ?_
    simp [buildCommand, flagOpt, hv, List.append_assoc]
  · rw [reserved_mem_buildCommand hw (by decide)]; simp
  · intro v hv
    refine infix_of_eq
      (baseCommand classpath cfg graphFile outputFile
        ++ flagIf (cfg.dim == 2) "--2d"
        ++ flagOpt "--seed" cfg.seed
        ++ flagOpt "--barnesHutSplits" cfg.splits
        ++ flagIf cfg.update_center "--updateCenter"
        ++ flagIf cfg.lin_log_mode "--linLogMode")
      (flagIf cfg.strong_gravity_mode "--strongGravityMode"
        ++ flagIf cfg.outbound_attraction_distribution
            "--outboundAttractionDistribution"
        ++ flagIf cfg.directed "--directed"
        ++ stoppingFlags cfg
        ++ flagOpt "--coords" posFile) ?_
    simp [buildCommand, flagOpt, hv, List.append_assoc]
  · rw [reserved_mem_buildCommand hw (by decide)]; simp
  · rw [reserved_mem_buildCommand hw (by decide)]; simp
  · rw [reserved_mem_buildCommand hw (by decide)]; simp
  · rw [reserved_mem_buildCommand hw (by decide)]; simp
  · rw [reserved_mem_buildCommand hw (by decide)]; simp
  · rw [reserved_mem_buildCommand hw (by decide)]; simp
  · intro p hp
    refine infix_of_eq
      (baseCommand classpath cfg graphFile outputFile
        ++ flagIf (cfg.dim == 2) "--2d"
        ++ flagOpt "--seed" cfg.seed
        ++ flagOpt "--barnesHutSplits" cfg.splits
        ++ flagIf cfg.update_center "--updateCenter"
        ++ flagIf cfg.lin_log_mode "--linLogMode"
        ++ flagOpt "--scalingRatio" cfg.repulsion
        ++ flagIf cfg.strong_gravity_mode "--strongGravityMode"
        ++ flagIf cfg.outbound_attraction_distribution
            "--outboundAttractionDistribution"
        ++ flagIf cfg.directed "--directed"
        ++ stoppingFlags cfg) [] ?_
    simp [buildCommand, flagOpt, hp, List.append_assoc]

/-- Configuration with every optional parameter provided, for the C7
witness. -/
def optionsConfig : Config :=
  { sampleConfig with seed := some "42", splits := some "2", repulsion := some "10.0" }

/-- Witness for C7 at a configuration providing seed, splits, repulsion
and an initial-position file. -/
theorem conditional_flags_witness :
    WfCommand "cp.jar" optionsConfig "g.net" "o.coords" (some "p.csv") ∧
    ("--2d" ∈ buildCommand "cp.jar" optionsConfig "g.net" "o.coords"
        (some "p.csv") ↔ optionsConfig.dim = 2) ∧
    ("--seed" ∈ buildCommand "cp.jar" optionsConfig "g.net" "o.coords"
        (some "p.csv") ↔ optionsConfig.seed.isSome) ∧
    ("--coords" ∈ buildCommand "cp.jar" optionsConfig "g.net" "o.coords"
        (some "p.csv") ↔ (some "p.csv").isSome) :=
  ⟨by decide,
    (conditional_flags "cp.jar" optionsConfig "g.net" "o.coords"
      (some "p.csv") (by decide)).1,
    (conditional_flags "cp.jar" optionsConfig "g.net" "o.coords"
      (some "p.csv") (by decide)).2.1,
    (conditional_flags "cp.jar" optionsConfig "g.net" "o.coords"
      (some "p.csv") (by decide)).2.2.2.2.2.2.2.2.2.2.2.2.1⟩

/-- C8: the engine argument vector is a deterministic function of the
configuration and the produced file paths: two constructions from equal
inputs yield equal vectors.  Effect freedom is reflected in the
embedding by the type of buildCommand, which consumes no state and
produces only the vector. -/
theorem buildCommand_deterministic (cp1 cp2 gf1 gf2 out1 out2 : String)
    (cfg1 cfg2 : Config) (pf1 pf2 : Option String)
    (hcp : cp1 = cp2) (hcfg : cfg1 = cfg2) (hgf : gf1 = gf2)
    (hout : out1 = out2) (hpf : pf1 = pf2) :
    buildCommand cp1 cfg1 gf1 out1 pf1 = buildCommand cp2 cfg2 gf2 out2 pf2 := by
  subst hcp; subst hcfg; subst hgf; subst hout; subst hpf; rfl

/-- Witness for C8 at a concrete configuration. -/
theorem buildCommand_deterministic_witness :
    buildCommand "cp.jar" sampleConfig "g.net" "o.coords" none =
      buildCommand "cp.jar" sampleConfig "g.net" "o.coords" none :=
  buildCommand_deterministic "cp.jar" "cp.jar" "g.net" "g.net"
    "o.coords" "o.coords" sampleConfig sampleConfig none none
    rfl rfl rfl rfl rfl
/-- Forward index mapping of line 129 of layout.py: the dict
comprehension assigns to each label of G.nodes() its position in the
node iteration.  Since a networkx graph iterates each node exactly once,
the dict maps a label to the index of its first (only) occurrence, which
is what this function computes. -/
def forward {α : Type} [DecidableEq α] : List α → α → Option Nat
  | [], _ => none
  | x :: xs, l => if x = l then some 0 else (forward xs l).map (· + 1)

/-- Inverse index mapping of line 130 of layout.py: index i maps back to
the label at position i of the node iteration. -/
def inverseMapping {α : Type} (nodes : List α) (i : Nat) : Option α :=
  nodes.get? i

theorem forward_get? {α : Type} [DecidableEq α] {nodes : List α} {l : α}
    {i : Nat} (h : forward nodes l = some i) : nodes.get? i = some l := by
  induction nodes generalizing i with
  | nil => simp [forward] at h
  | cons x xs ih =>
    by_cases hx : x = l
    · simp [forward, hx] at h
      subst h
      simp [hx]
    · simp [forward, hx] at h
      obtain ⟨j, hj, hji⟩ := h
      subst hji
      simpa using ih hj

theorem forward_get {α : Type} [DecidableEq α] {nodes : List α}
    (h : nodes.Nodup) {i : Nat} (hi : i < nodes.length) :
    forward nodes (nodes.get ⟨i, hi⟩) = some i := by
  induction nodes generalizing i with
  | nil => simp at hi
  | cons x xs ih =>
    cases i with
    | zero => simp [forward]
    | succ j =>
      have hj : j < xs.length := by simpa using hi
      have hmem : xs.get ⟨j, hj⟩ ∈ xs := List.get_mem xs j hj
      have hx : x ≠ xs.get ⟨j, hj⟩ := by
        intro he
        exact (List.nodup_cons.1 h).1 (he ▸ hmem)
      have hf := ih (List.nodup_cons.1 h).2 hj
      have heq : (x :: xs).get ⟨j + 1, hi⟩ = xs.get ⟨j, hj⟩ := rfl
      rw [heq]
      simp only [forward]
      rw [if_neg hx, hf]
      rfl

theorem forward_mem {α : Type} [DecidableEq α] {nodes : List α} {l : α}
    (h : l ∈ nodes) : ∃ i, forward nodes l = some i := by
  induction nodes with
  | nil => simp at h
  | cons x xs ih =>
    by_cases hx : x = l
    · exact ⟨0, by simp [forward, hx]⟩
    · have hl : l ∈ xs := by
        rcases List.mem_cons.1 h with he | hm
        · exact absurd he.symm hx
        · exact hm
      obtain ⟨i, hi⟩ := ih hl
      exact ⟨i + 1, by simp [forward, hx, hi]⟩

/-- C6: the node-index mapping of lines 129 and 130 of layout.py is a
bijection between the node labels and the dense range below the node
count: every label is assigned an index below the node count and the
inverse mapping returns the label; every index below the node count is
the image of the label at that position (first-encounter order starting
at 0); no two labels share an index. -/
theorem index_mapping_bijection {α : Type} [DecidableEq α]
    (nodes : List α) (h : nodes.Nodup) :
    (∀ l ∈ nodes, ∃ i, forward nodes l = some i ∧ i < nodes.length ∧
      inverseMapping nodes i = some l) ∧
    (∀ i, (hi : i < nodes.length) → inverseMapping nodes i =
      some (nodes.get ⟨i, hi⟩) ∧
      forward nodes (nodes.get ⟨i, hi⟩) = some i) ∧
    (∀ l1 l2 i, forward nodes l1 = some i → forward nodes l2 = some i →
      l1 = l2) := by
  refine ⟨?_, ?_, ?_⟩
  · intro l hl
    obtain ⟨i, hi⟩ := forward_mem hl
    have hg := forward_get? hi
    exact ⟨i, hi, (List.get?_eq_some.1 hg).1, hg⟩
  · intro i hi
    exact ⟨List.get?_eq_get hi, forward_get h hi⟩
  · intro l1 l2 i h1 h2
    have g1 := forward_get? h1
    have g2 := forward_get? h2
    rw [g1] at g2
    exact Option.some_injective _ g2

/-- Witness for C6 on a concrete three-node label list. -/
theorem index_mapping_bijection_witness :
    ([5, 7, 9] : List Nat).Nodup ∧
    (∀ l ∈ ([5, 7, 9] : List Nat), ∃ i, forward [5, 7, 9] l = some i ∧
      i < 3 ∧ inverseMapping [5, 7, 9] i = some l) :=
  ⟨by decide, (index_mapping_bijection [5, 7, 9] (by decide)).1⟩
deriving instance DecidableEq for Except

/-- Python exception kinds that the pipeline of fa2_layout can raise. -/
inductive PyError where
  | keyError
  | indexError
  | nameError (var : String)
  | ioError (msg : String)
  | calledProcessError
  | fileNotFoundError (path : String)
deriving DecidableEq, Repr

/-- A graph as fa2_layout consumes it: node labels and edges. -/
structure Graph (α : Type) where
  nodes : List α
  edges : List (α × α)
deriving DecidableEq, Repr

/-- The graph-like argument G of fa2_layout: either a networkx graph or
a bare collection of node labels. -/
inductive GraphInput (α : Type) where
  | graph (g : Graph α)
  | nodeList (ls : List α)
deriving DecidableEq, Repr

/-- A single node insertion as performed by nx.Graph.add_nodes_from:
appended unless already present. -/
def insertNode {α : Type} [DecidableEq α] (acc : List α) (x : α) : List α :=
  if x ∈ acc then acc else acc ++ [x]

/-- Node set built by add_nodes_from on an iterable, in first-encounter
order. -/
def addNodesFrom {α : Type} [DecidableEq α] (ls : List α) : List α :=
  ls.foldl insertNode []

/-- Lines 124 to 127 of layout.py: a non-graph input is poured into a
fresh empty graph, leaving the caller value untouched. -/
def normalizeInput {α : Type} [DecidableEq α] : GraphInput α → Graph α
  | .graph g => g
  | .nodeList ls => { nodes := addNodesFrom ls, edges := [] }

/-- Line 131 of layout.py: nx.relabel_nodes with copy semantics renames
every node and edge endpoint through the mapping, producing a new
graph. -/
def relabelNodes {α : Type} [DecidableEq α] (g : Graph α) : Graph Nat :=
  { nodes := g.nodes.filterMap (forward g.nodes),
    edges := g.edges.filterMap (fun e =>
      match forward g.nodes e.1, forward g.nodes e.2 with
      | some a, some b => some (a, b)
      | _, _ => none) }

/-- One data row of the engine output coordinate file: the index-column
cell (dropped by read_csv with index_col 0) and the remaining cells. -/
structure OutputRow where
  idx : String
  coords : List String
deriving DecidableEq, Repr

/-- Environment of one invocation: the generated temp file names, which
externally-determined steps succeed, which files the engine produces,
and the content of the output coordinate file. -/
structure Env where
  gname : String
  oname : String
  pname : String
  graphWriteOk : Bool
  graphWriteCreates : Bool
  posWriteOk : Bool
  engineExitZero : Bool
  engineWritesOutput : Bool
  engineWritesDistances : Bool
  outputRows : List OutputRow
deriving DecidableEq, Repr

/-- Mutable world state threaded through the pipeline: the file system
as the set of existing paths, the caller-owned argument objects, and the
count of engine launches. -/
structure PyState (α : Type) where
  fs : Finset String
  callerGraph : GraphInput α
  callerPos : Option (List (α × List String))
  engineCalls : Nat
deriving DecidableEq

/-- The local-variable slots of fa2_layout that the finally block
references; a slot is none while the Python local is unbound. -/
structure Locals where
  temp_graph_filename : Option String
  output_filename : Option String
  temp_pos_filename : Option String
deriving DecidableEq, Repr

/-- os.remove: fails with FileNotFoundError when the path is absent. -/
def removeStrict (fs : Finset String) (p : String) :
    Except PyError (Finset String) :=
  if p ∈ fs then .ok (fs.erase p) else .error (.fileNotFoundError p)

/-- Lines 200 to 205 of layout.py: translate each supplied position
through the mapping, reading the coordinate components; an unknown
label raises KeyError (before any file is written), a too-short
coordinate list raises IndexError. -/
def serializePositions {α : Type} [DecidableEq α] (nodes : List α)
    (dim : Nat) : List (α × List String) →
    Except PyError (List (Nat × List String))
  | [] => .ok []
  | (label, coords) :: rest =>
    match forward nodes label with
    | none => .error .keyError
    | some i =>
      match coords.get? 0, coords.get? 1 with
      | some cx, some cy =>
        if dim == 3 then
          match coords.get? 2 with
          | some cz =>
            (serializePositions nodes dim rest).map
              (fun rs => (i, [cx, cy, cz]) :: rs)
          | none => .error .indexError
        else
          (serializePositions nodes dim rest).map
            (fun rs => (i, [cx, cy]) :: rs)
      | _, _ => .error .indexError

/-- Line 223 of layout.py with explicit position counter: the dict
comprehension pairs the i-th data row with inverse_mapping[i]; a row
position outside the inverse mapping raises KeyError. -/
def parseRowsAux {α : Type} (nodes : List α) :
    Nat → List OutputRow → Except PyError (List (α × List String))
  | _, [] => .ok []
  | i, r :: rs =>
    match inverseMapping nodes i with
    | none => .error .keyError
    | some l =>
      match parseRowsAux nodes (i + 1) rs with
      | .ok rest => .ok ((l, r.coords) :: rest)
      | .error e => .error e

/-- Lines 212 and 223 of layout.py: read_csv with index_col 0 drops the
index column, and the comprehension enumerates the remaining rows from
position 0. -/
def parseRows {α : Type} (nodes : List α) (rows : List OutputRow) :
    Except PyError (List (α × List String)) :=
  parseRowsAux nodes 0 rows

/-- Lines 212 to 225 of layout.py: the tail of the try body after a
zero engine exit: read the output file, remove the temp files in source
order (position file first when one was written, then graph file, then
output file, then the distances file when present), and finally build
the label-keyed result. -/
def successTail {α : Type} (env : Env) (nodes : List α) (hasPos : Bool)
    (l : Locals) (s : PyState α) :
    Except PyError (List (α × List String)) × Locals × PyState α :=
  if (env.oname ++ ".txt") ∈ s.fs then
    match (if hasPos then removeStrict s.fs env.pname else .ok s.fs) with
    | .error e => (.error e, l, s)
    | .ok fs1 =>
      match removeStrict fs1 env.gname with
      | .error e => (.error e, l, { s with fs := fs1 })
      | .ok fs2 =>
        match removeStrict fs2 (env.oname ++ ".txt") with
        | .error e => (.error e, l, { s with fs := fs2 })
        | .ok fs3 =>
          let fs4 := fs3.erase (env.oname ++ ".distances.txt")
          match parseRows nodes env.outputRows with
          | .error e => (.error e, l, { s with fs := fs4 })
          | .ok result => (.ok result, l, { s with fs := fs4 })
  else (.error (.fileNotFoundError (env.oname ++ ".txt")), l, s)

/-- Line 210 of layout.py: subprocess.check_call launches the engine
once; the engine may create the output and distances files whether or
not it exits zero, and a non-zero exit raises CalledProcessError. -/
def invoke {α : Type} (env : Env) (nodes : List α) (hasPos : Bool)
    (l : Locals) (s : PyState α) :
    Except PyError (List (α × List String)) × Locals × PyState α :=
  let fs1 := if env.engineWritesOutput
    then insert (env.oname ++ ".txt") s.fs else s.fs
  let fs2 := if env.engineWritesDistances
    then insert (env.oname ++ ".distances.txt") fs1 else fs1
  let s1 := { s with fs := fs2, engineCalls := s.engineCalls + 1 }
  if env.engineExitZero then successTail env nodes hasPos l s1
  else (.error .calledProcessError, l, s1)

/-- Lines 123 to 225 of layout.py: the try body.  Local slots are bound
exactly where the source binds the corresponding Python locals; a
failing graph write may leave a partially written file behind. -/
def tryBody {α : Type} [DecidableEq α] (env : Env) (cfg : Config)
    (s0 : PyState α) :
    Except PyError (List (α × List String)) × Locals × PyState α :=
  let G := normalizeInput s0.callerGraph
  let nodes := G.nodes
  let _H := relabelNodes G
  let l1 : Locals :=
    { temp_graph_filename := some env.gname, output_filename := none,
      temp_pos_filename := none }
  if env.graphWriteOk then
    let s1 := { s0 with fs := insert env.gname s0.fs }
    let l2 := { l1 with output_filename := some env.oname }
    match s0.callerPos with
    | none => invoke env nodes false l2 s1
    | some posMap =>
      let l3 := { l2 with temp_pos_filename := some env.pname }
      match serializePositions nodes cfg.dim posMap with
      | .error e => (.error e, l3, s1)
      | .ok _rows =>
        if env.posWriteOk then
          invoke env nodes true l3 { s1 with fs := insert env.pname s1.fs }
        else (.error (.ioError "to_csv"), l3, s1)
  else
    (.error (.ioError "write_pajek"), l1,
      { s0 with fs := if env.graphWriteCreates
          then insert env.gname s0.fs else s0.fs })

/-- Lines 228 to 240 of layout.py: the finally block.  The path list is
evaluated left to right, so an unbound graph-file or output-file local
raises NameError there; the loop then removes each existing path, and
the trailing while loop removes the position file, swallowing every
error (including an unbound local) through the bare except. -/
def finallyBlock (l : Locals) (fs : Finset String) :
    Except PyError (Finset String) :=
  match l.temp_graph_filename with
  | none => .error (.nameError "temp_graph_filename")
  | some g =>
    match l.output_filename with
    | none => .error (.nameError "output_filename")
    | some o =>
      let fs1 := ((fs.erase g).erase (o ++ ".txt")).erase
        (o ++ ".distances.txt")
      .ok (match l.temp_pos_filename with
        | none => fs1
        | some p => fs1.erase p)

/-- Lines 123 to 240 of layout.py: run the try body, then the finally
block; an exception escaping the finally block replaces the outcome of
the body (the except clause re-raises the body error unchanged
first). -/
def fa2_layout {α : Type} [DecidableEq α] (env : Env) (cfg : Config)
    (s0 : PyState α) :
    Except PyError (List (α × List String)) × PyState α :=
  match tryBody env cfg s0 with
  | (res, l, s) =>
    match finallyBlock l s.fs with
    | .ok fs2 => (res, { s with fs := fs2 })
    | .error e => (.error e, s)
set_option maxRecDepth 4096 in
theorem parseRowsAux_ok {α : Type} (nodes : List α) (rows : List OutputRow)
    (k : Nat) (h : k + rows.length ≤ nodes.length) :
    parseRowsAux nodes k rows =
      .ok (((nodes.drop k).take rows.length).zip
        (rows.map OutputRow.coords)) := by
  induction rows generalizing k with
  | nil => simp [parseRowsAux]
  | cons r rs ih =>
    have hk : k < nodes.length := by
      simp only [List.length_cons] at h
      omega
    have hrec := ih (k + 1) (by simp only [List.length_cons] at h; omega)
    have hget : inverseMapping nodes k = some (nodes.get ⟨k, hk⟩) :=
      List.get?_eq_get hk
    have hdrop : nodes.drop k = nodes.get ⟨k, hk⟩ :: nodes.drop (k + 1) :=
      List.drop_eq_getElem_cons hk
    simp only [parseRowsAux, hget, hrec]
    rw [hdrop]
    simp only [List.length_cons, List.take_succ_cons, List.map_cons,
      List.zip_cons_cons]

theorem parseRowsAux_err {α : Type} (nodes : List α) (rows : List OutputRow)
    (k : Nat) (h : nodes.length - k < rows.length) :
    parseRowsAux nodes k rows = .error .keyError := by
  induction rows generalizing k with
  | nil => simp at h
  | cons r rs ih =>
    by_cases hk : k < nodes.length
    · have hget : inverseMapping nodes k = some (nodes.get ⟨k, hk⟩) :=
        List.get?_eq_get hk
      have hrec := ih (k + 1) (by simp only [List.length_cons] at h; omega)
      simp [parseRowsAux, hget, hrec]
    · have hget : inverseMapping nodes k = none := by
        unfold inverseMapping
        exact List.get?_eq_none.2 (by omega)
      simp [parseRowsAux, hget]

/-- C10: the result parser keys positions by row position, not by the
index column: for rows fitting inside the node range it returns the
positional zip of nodes with row coordinates, and its result is
unchanged under any rewriting of the index-column cells. -/
theorem parser_keys_by_row_position {α : Type} [DecidableEq α]
    (nodes : List α) (rows rows2 : List OutputRow)
    (hlen : rows.length ≤ nodes.length)
    (hcoords : rows.map OutputRow.coords = rows2.map OutputRow.coords) :
    parseRows nodes rows =
      .ok ((nodes.take rows.length).zip (rows.map OutputRow.coords)) ∧
    parseRows nodes rows = parseRows nodes rows2 := by
  have hlen2 : rows2.length = rows.length := by
    have := congrArg List.length hcoords
    simpa using this.symm
  have h1 := parseRowsAux_ok nodes rows 0 (by simpa using hlen)
  have h2 := parseRowsAux_ok nodes rows2 0 (by simp [hlen2]; omega)
  constructor
  · simpa [parseRows] using h1
  · rw [parseRows, parseRows, h1, h2, hlen2, hcoords]

/-- Witness for C10: two concrete output tables differing only in the
index column parse identically, keyed by row position. -/
theorem parser_keys_by_row_position_witness :
    parseRows [5, 6, 7]
      [{ idx := "9", coords := ["a", "b"] }, { idx := "0", coords := ["c", "d"] }] =
      .ok [(5, ["a", "b"]), (6, ["c", "d"])] ∧
    parseRows [5, 6, 7]
      [{ idx := "9", coords := ["a", "b"] }, { idx := "0", coords := ["c", "d"] }] =
      parseRows [5, 6, 7]
        [{ idx := "1", coords := ["a", "b"] }, { idx := "77", coords := ["c", "d"] }] := by
  have h := parser_keys_by_row_position [5, 6, 7]
    [{ idx := "9", coords := ["a", "b"] }, { idx := "0", coords := ["c", "d"] }]
    [{ idx := "1", coords := ["a", "b"] }, { idx := "77", coords := ["c", "d"] }]
    (by decide) (by decide)
  exact ⟨by rw [h.1]; decide, h.2⟩
theorem successTail_ok {α : Type} {env : Env} {nodes : List α}
    {hasPos : Bool} {l l2 : Locals} {s s2 : PyState α}
    {res : List (α × List String)}
    (h : successTail env nodes hasPos l s = (.ok res, l2, s2)) :
    parseRows nodes env.outputRows = .ok res := by
  unfold successTail at h
  repeat' split at h
  all_goals simp_all

theorem invoke_ok {α : Type} {env : Env} {nodes : List α}
    {hasPos : Bool} {l l2 : Locals} {s s2 : PyState α}
    {res : List (α × List String)}
    (h : invoke env nodes hasPos l s = (.ok res, l2, s2)) :
    parseRows nodes env.outputRows = .ok res := by
  unfold invoke at h
  cases hez : env.engineExitZero <;>
    simp only [hez, Bool.false_eq_true, if_false, if_true] at h
  · simp_all
  · exact successTail_ok h

theorem tryBody_ok {α : Type} [DecidableEq α] {env : Env} {cfg : Config}
    {s0 : PyState α} {l : Locals} {s : PyState α}
    {res : List (α × List String)}
    (h : tryBody env cfg s0 = (.ok res, l, s)) :
    parseRows (normalizeInput s0.callerGraph).nodes env.outputRows =
      .ok res := by
  unfold tryBody at h
  cases hgw : env.graphWriteOk <;>
    simp only [hgw, Bool.false_eq_true, if_false, if_true] at h
  · simp_all
  · cases hcp : s0.callerPos with
    | none =>
      simp only [hcp] at h
      exact invoke_ok h
    | some posMap =>
      simp only [hcp] at h
      cases hsp : serializePositions (normalizeInput s0.callerGraph).nodes
          cfg.dim posMap with
      | error e => simp only [hsp] at h; simp_all
      | ok rows =>
        simp only [hsp] at h
        cases hpw : env.posWriteOk <;>
          simp only [hpw, Bool.false_eq_true, if_false, if_true] at h
        · simp_all
        · exact invoke_ok h

theorem fa2_layout_ok {α : Type} [DecidableEq α] {env : Env} {cfg : Config}
    {s0 : PyState α} {s : PyState α} {res : List (α × List String)}
    (h : fa2_layout env cfg s0 = (.ok res, s)) :
    parseRows (normalizeInput s0.callerGraph).nodes env.outputRows =
      .ok res := by
  unfold fa2_layout at h
  cases htb : tryBody env cfg s0 with
  | mk r ls =>
    obtain ⟨l, st⟩ := ls
    rw [htb] at h
    cases hfin : finallyBlock l st.fs with
    | ok fs2 =>
      simp only [hfin, Prod.mk.injEq] at h
      rw [h.1] at htb
      exact tryBody_ok htb
    | error e =>
      simp only [hfin, Prod.mk.injEq] at h
      exact absurd h.1 (by simp)
/-- C1 amended: the parser is positional.  An output table with more
rows than nodes fails with KeyError; a table with at most as many rows
as nodes parses successfully into the positional pairing of nodes with
row coordinates, so a table with exactly one row per node yields exactly
one entry per node and no extras, while a table with missing rows
silently yields an incomplete mapping rather than a failure; and every
successful fa2_layout result is exactly the parse of the engine output
rows. -/
theorem result_integrity {α : Type} [DecidableEq α] (nodes : List α)
    (rows : List OutputRow) :
    (nodes.length < rows.length →
      parseRows nodes rows = .error .keyError) ∧
    (rows.length ≤ nodes.length →
      parseRows nodes rows =
        .ok ((nodes.take rows.length).zip (rows.map OutputRow.coords))) ∧
    (rows.length = nodes.length →
      ∃ r, parseRows nodes rows = .ok r ∧ r.map Prod.fst = nodes) ∧
    (∀ (env : Env) (cfg : Config) (s0 : PyState α)
      (res : List (α × List String)) (s : PyState α),
      fa2_layout env cfg s0 = (.ok res, s) →
      parseRows (normalizeInput s0.callerGraph).nodes env.outputRows =
        .ok res) := by
  refine ⟨?_, ?_, ?_, ?_⟩
  · intro h
    exact parseRowsAux_err nodes rows 0 (by omega)
  · intro h
    have := parseRowsAux_ok nodes rows 0 (by omega)
    simpa [parseRows] using this
  · intro h
    refine ⟨(nodes.take rows.length).zip (rows.map OutputRow.coords), ?_, ?_⟩
    · have := parseRowsAux_ok nodes rows 0 (by omega)
      simpa [parseRows] using this
    · rw [h, List.take_length]
      exact List.map_fst_zip nodes (rows.map OutputRow.coords)
        (by simp [h])
  · intro env cfg s0 res s h
    exact fa2_layout_ok h

/-- Engine environment whose output file has only one row for a
two-node graph. -/
def shortEnv : Env :=
  { gname := "g.net", oname := "o.coords", pname := "p.csv",
    graphWriteOk := true, graphWriteCreates := true, posWriteOk := true,
    engineExitZero := true, engineWritesOutput := true,
    engineWritesDistances := false,
    outputRows := [{ idx := "0", coords := ["1.5", "2.5"] }] }

/-- Caller state with a two-node graph, no initial positions and an
empty file system. -/
def pipeState : PyState Nat :=
  { fs := ∅, callerGraph := .nodeList [0, 1], callerPos := none,
    engineCalls := 0 }

/-- Counterexample to C1 as stated: on a two-node graph with an output
file containing a single row, the call succeeds with a single-entry
mapping instead of raising a result-integrity failure. -/
theorem result_integrity_counterexample :
    (fa2_layout shortEnv sampleConfig pipeState).1 =
      .ok [(0, ["1.5", "2.5"])] ∧
    (normalizeInput pipeState.callerGraph).nodes = [0, 1] := by
  constructor <;> decide

/-- Engine environment producing exactly one output row per node of the
two-node graph. -/
def fullEnv : Env :=
  { shortEnv with outputRows := [{ idx := "0", coords := ["1.5", "2.5"] },
      { idx := "1", coords := ["3.5", "4.5"] }] }

/-- Witness for C1 discharging each implication at concrete inputs. -/
theorem result_integrity_witness :
    parseRows [4, 5] [{ idx := "0", coords := ["a"] },
      { idx := "1", coords := ["b"] }, { idx := "2", coords := ["c"] }] =
      .error .keyError ∧
    parseRows [4, 5] [{ idx := "0", coords := ["a"] }] =
      .ok ((([4, 5] : List Nat).take 1).zip
        ([{ idx := "0", coords := ["a"] }].map OutputRow.coords)) ∧
    (∃ r, parseRows [4, 5] [{ idx := "0", coords := ["a"] },
      { idx := "1", coords := ["b"] }] = .ok r ∧
      r.map Prod.fst = [4, 5]) ∧
    parseRows (normalizeInput pipeState.callerGraph).nodes
      fullEnv.outputRows = .ok [(0, ["1.5", "2.5"]), (1, ["3.5", "4.5"])] :=
  ⟨(result_integrity [4, 5] _).1 (by decide),
   (result_integrity [4, 5] _).2.1 (by decide),
   (result_integrity [4, 5] _).2.2.1 (by decide),
   (result_integrity ([] : List Nat) []).2.2.2 fullEnv sampleConfig pipeState
     [(0, ["1.5", "2.5"]), (1, ["3.5", "4.5"])]
     { pipeState with engineCalls := 1 } (by decide)⟩
theorem serializePositions_err {α : Type} [DecidableEq α] (nodes : List α)
    (dim : Nat) (posMap : List (α × List String))
    (hcoords : ∀ p ∈ posMap, 3 ≤ p.2.length)
    (hbad : ∃ p ∈ posMap, forward nodes p.1 = none) :
    serializePositions nodes dim posMap = .error .keyError := by
  induction posMap with
  | nil => simp at hbad
  | cons q rest ih =>
    obtain ⟨label, coords⟩ := q
    cases hq : forward nodes label with
    | none => simp [serializePositions, hq]
    | some i =>
      have hlen : 3 ≤ coords.length := hcoords (label, coords) (by simp)
      have h0 : ∃ c, coords.get? 0 = some c :=
        List.get?_eq_some.2 ⟨by omega, rfl⟩ |> fun h => ⟨_, h⟩
      have h1 : ∃ c, coords.get? 1 = some c :=
        List.get?_eq_some.2 ⟨by omega, rfl⟩ |> fun h => ⟨_, h⟩
      have h2 : ∃ c, coords.get? 2 = some c :=
        List.get?_eq_some.2 ⟨by omega, rfl⟩ |> fun h => ⟨_, h⟩
      obtain ⟨c0, hc0⟩ := h0
      obtain ⟨c1, hc1⟩ := h1
      obtain ⟨c2, hc2⟩ := h2
      have hrest : ∃ p ∈ rest, forward nodes p.1 = none := by
        obtain ⟨p, hp, hpf⟩ := hbad
        rcases List.mem_cons.1 hp with he | hm
        · rw [he] at hpf
          simp only at hpf
          rw [hpf] at hq
          cases hq
        · exact ⟨p, hm, hpf⟩
      have hihr := ih (fun p hp => hcoords p (List.mem_cons_of_mem _ hp))
        hrest
      simp only [List.get?_eq_getElem?] at hc0 hc1 hc2
      by_cases hd : dim == 3
      · simp [serializePositions, hq, hc0, hc1, hc2, hd, hihr, Except.map]
      · simp [serializePositions, hq, hc0, hc1, hc2, hd, hihr, Except.map]

/-- C4: when the caller-supplied initial positions contain a label that
is not a node of the graph, the call fails with the serialization-stage
KeyError (the error the design calls SerializationError), the engine
subprocess is never launched, and the initial-position file is absent
from the file system when control returns. -/
theorem unknown_label_fails_before_engine {α : Type} [DecidableEq α]
    (env : Env) (cfg : Config) (s0 : PyState α)
    (posMap : List (α × List String))
    (hpos : s0.callerPos = some posMap)
    (hcoords : ∀ p ∈ posMap, 3 ≤ p.2.length)
    (hbad : ∃ p ∈ posMap,
      forward (normalizeInput s0.callerGraph).nodes p.1 = none)
    (hgw : env.graphWriteOk = true) :
    (fa2_layout env cfg s0).1 = .error .keyError ∧
    (fa2_layout env cfg s0).2.engineCalls = s0.engineCalls ∧
    env.pname ∉ (fa2_layout env cfg s0).2.fs := by
  have hser := serializePositions_err (normalizeInput s0.callerGraph).nodes
    cfg.dim posMap hcoords hbad
  unfold fa2_layout tryBody finallyBlock
  simp only [hgw, if_true, hpos, hser]
  refine ⟨trivial, trivial, ?_⟩
  exact Finset.not_mem_erase env.pname _
/-- Caller state supplying an initial position for label 7, which is
not a node of the two-node graph. -/
def posState : PyState Nat :=
  { fs := ∅, callerGraph := .nodeList [0, 1],
    callerPos := some [(0, ["1", "2", "3"]), (7, ["4", "5", "6"])],
    engineCalls := 0 }

/-- Witness for C4 on the concrete two-node graph with a stray label. -/
theorem unknown_label_witness :
    (fa2_layout fullEnv sampleConfig posState).1 = .error .keyError ∧
    (fa2_layout fullEnv sampleConfig posState).2.engineCalls = 0 ∧
    "p.csv" ∉ (fa2_layout fullEnv sampleConfig posState).2.fs := by
  have h := unknown_label_fails_before_engine fullEnv sampleConfig posState
    [(0, ["1", "2", "3"]), (7, ["4", "5", "6"])] rfl (by decide) (by decide)
    rfl
  exact ⟨h.1, h.2.1, h.2.2⟩

/-- C5: a non-zero engine exit makes the call fail with
CalledProcessError (the error the design calls EngineInvocationError),
the engine is launched exactly once (no retry), and none of the four
temporary paths created up to that point survives in the file system
when the error reaches the caller. -/
theorem engine_failure_cleanup {α : Type} [DecidableEq α]
    (env : Env) (cfg : Config) (s0 : PyState α)
    (hgw : env.graphWriteOk = true)
    (hexit : env.engineExitZero = false)
    (hpos : s0.callerPos = none ∨
      (env.posWriteOk = true ∧ ∃ posMap rows, s0.callerPos = some posMap ∧
        serializePositions (normalizeInput s0.callerGraph).nodes cfg.dim
          posMap = .ok rows))
    (hp0 : env.pname ∉ s0.fs)
    (hd1 : env.pname ≠ env.gname)
    (hd2 : env.pname ≠ env.oname ++ ".txt")
    (hd3 : env.pname ≠ env.oname ++ ".distances.txt") :
    (fa2_layout env cfg s0).1 = .error .calledProcessError ∧
    (fa2_layout env cfg s0).2.engineCalls = s0.engineCalls + 1 ∧
    env.gname ∉ (fa2_layout env cfg s0).2.fs ∧
    env.oname ++ ".txt" ∉ (fa2_layout env cfg s0).2.fs ∧
    env.oname ++ ".distances.txt" ∉ (fa2_layout env cfg s0).2.fs ∧
    env.pname ∉ (fa2_layout env cfg s0).2.fs := by
  rcases hpos with hp | ⟨hpw, posMap, rows, hp, hser⟩
  · unfold fa2_layout tryBody invoke finallyBlock
    simp only [hgw, if_true, hp, hexit, Bool.false_eq_true, if_false]
    refine ⟨trivial, trivial, ?_, ?_, ?_, ?_⟩
    · simp [Finset.mem_erase]
    · simp [Finset.mem_erase]
    · simp [Finset.mem_erase]
    · cases hwo : env.engineWritesOutput <;>
        cases hwd : env.engineWritesDistances <;>
        simp [Finset.mem_erase, Finset.mem_insert, hp0, hd1, hd2, hd3]
  · unfold fa2_layout tryBody invoke finallyBlock
    simp only [hgw, if_true, hp, hser, hpw, hexit, Bool.false_eq_true,
      if_false]
    refine ⟨trivial, trivial, ?_, ?_, ?_, ?_⟩
    · simp [Finset.mem_erase]
    · simp [Finset.mem_erase]
    · simp [Finset.mem_erase]
    · exact Finset.not_mem_erase env.pname _
/-- Engine environment whose subprocess exits with a non-zero status. -/
def failEnv : Env := { fullEnv with engineExitZero := false }

/-- Witness for C5 on the concrete two-node graph. -/
theorem engine_failure_cleanup_witness :
    (fa2_layout failEnv sampleConfig pipeState).1 =
      .error .calledProcessError ∧
    (fa2_layout failEnv sampleConfig pipeState).2.engineCalls = 1 ∧
    "g.net" ∉ (fa2_layout failEnv sampleConfig pipeState).2.fs := by
  have h := engine_failure_cleanup failEnv sampleConfig pipeState rfl rfl
    (Or.inl rfl) (by decide) (by decide) (by decide) (by decide)
  exact ⟨h.1, h.2.1, h.2.2.1⟩

/-- Environment in which nx.write_pajek fails after creating a partial
graph file, so the locals bound after that point never come into
being. -/
def maskEnv : Env :=
  { gname := "g.net", oname := "o.coords", pname := "p.csv",
    graphWriteOk := false, graphWriteCreates := true, posWriteOk := true,
    engineExitZero := true, engineWritesOutput := false,
    engineWritesDistances := false, outputRows := [] }

/-- C3 fails on the code: when the graph serialization raises before
output_filename is bound, the try body ends with the serialization
IOError, but the finally block evaluates the unbound output_filename
local and raises NameError, which replaces the originating error, and
the partially written graph file survives in the file system. -/
theorem cleanup_masks_and_leaks :
    (tryBody maskEnv sampleConfig pipeState).1 =
      .error (.ioError "write_pajek") ∧
    (fa2_layout maskEnv sampleConfig pipeState).1 =
      .error (.nameError "output_filename") ∧
    "g.net" ∈ (fa2_layout maskEnv sampleConfig pipeState).2.fs := by
  refine ⟨?_, ?_, ?_⟩ <;> decide

theorem successTail_frame {α : Type} (env : Env) (nodes : List α)
    (hasPos : Bool) (l : Locals) (s : PyState α) :
    (successTail env nodes hasPos l s).2.2.callerGraph = s.callerGraph ∧
    (successTail env nodes hasPos l s).2.2.callerPos = s.callerPos := by
  unfold successTail
  repeat' split
  all_goals simp

theorem invoke_frame {α : Type} (env : Env) (nodes : List α)
    (hasPos : Bool) (l : Locals) (s : PyState α) :
    (invoke env nodes hasPos l s).2.2.callerGraph = s.callerGraph ∧
    (invoke env nodes hasPos l s).2.2.callerPos = s.callerPos := by
  unfold invoke
  cases hez : env.engineExitZero <;>
    simp only [hez, Bool.false_eq_true, if_false, if_true]
  · constructor <;> trivial
  · exact successTail_frame env nodes hasPos l _

theorem tryBody_frame {α : Type} [DecidableEq α] (env : Env) (cfg : Config)
    (s0 : PyState α) :
    (tryBody env cfg s0).2.2.callerGraph = s0.callerGraph ∧
    (tryBody env cfg s0).2.2.callerPos = s0.callerPos := by
  unfold tryBody
  cases hgw : env.graphWriteOk <;>
    simp only [hgw, Bool.false_eq_true, if_false, if_true]
  · constructor <;> trivial
  · cases hcp : s0.callerPos with
    | none =>
      dsimp only
      exact invoke_frame env _ false _ _
    | some posMap =>
      dsimp only
      cases hsp : serializePositions (normalizeInput s0.callerGraph).nodes
          cfg.dim posMap with
      | error e => constructor <;> trivial
      | ok rows =>
        dsimp only
        cases hpw : env.posWriteOk <;>
          simp only [hpw, Bool.false_eq_true, if_false, if_true]
        · constructor <;> trivial
        · exact invoke_frame env _ true _ _

/-- C9: fa2_layout leaves the caller-owned arguments untouched on every
path: after any invocation, successful or failing at any stage, the
caller graph object and the caller-supplied position mapping in the
final state are the ones passed in. -/
theorem caller_arguments_unchanged {α : Type} [DecidableEq α]
    (env : Env) (cfg : Config) (s0 : PyState α) :
    (fa2_layout env cfg s0).2.callerGraph = s0.callerGraph ∧
    (fa2_layout env cfg s0).2.callerPos = s0.callerPos := by
  have ht := tryBody_frame env cfg s0
  unfold fa2_layout
  cases htb : tryBody env cfg s0 with
  | mk r ls =>
    obtain ⟨l, st⟩ := ls
    rw [htb] at ht
    cases hfin : finallyBlock l st.fs <;> simp only [hfin]
    · exact ht
    · exact ht
